import Mathlib

/-!
Shallow embedding of the decoder abstraction layer and lookahead
sliding-window scene-change driver of av-scenechange
(src/lib.rs, src/decode.rs, src/vapoursynth.rs, src/ffmpeg.rs).

Machine integers (Rust `usize`/`u64`) are modelled as `Nat`; the program
manipulates frame indices, strides and heights that stay far below 2^64,
and no operation in the modelled code relies on wraparound.
-/

/-- Models rav1e's `ChromaSampling` as used by `VideoDetails` (decode.rs). -/
inductive ChromaSampling where
  | Cs420
  | Cs422
  | Cs444
  | Cs400
deriving DecidableEq, Repr

/-- Models rav1e's `ChromaSamplePosition` as used by `VideoDetails`. -/
inductive ChromaSamplePosition where
  | Unknown
  | Colocated
  | Vertical
deriving DecidableEq, Repr

/-- Models rav1e's `Rational { num: u64, den: u64 }`. -/
structure Rational where
  num : Nat
  den : Nat
deriving DecidableEq, Repr

/-- Mirrors `VideoDetails` from src/decode.rs. -/
structure VideoDetails where
  width : Nat
  height : Nat
  bit_depth : Nat
  chroma_sampling : ChromaSampling
  chroma_sample_position : ChromaSamplePosition
  time_base : Rational
  luma_padding : Nat
deriving DecidableEq, Repr

/-- Mirrors `SceneDetectionSpeed` from src/lib.rs. -/
inductive SceneDetectionSpeed where
  | Fast
  | Standard
deriving DecidableEq, Repr

/-- Mirrors `DetectionOptions` from src/lib.rs. -/
structure DetectionOptions where
  analysis_speed : SceneDetectionSpeed
  detect_flashes : Bool
  min_scenecut_distance : Option Nat
  max_scenecut_distance : Option Nat
  lookahead_distance : Nat
deriving DecidableEq, Repr

/-- Mirrors `DetectionResults` from src/lib.rs. -/
structure DetectionResults where
  scene_changes : List Nat
  frame_count : Nat
deriving DecidableEq, Repr

/-- Mirrors `align_power_of_two_and_shift` from src/lib.rs:
`(x + (1 << n) - 1) >> n`. -/
def align_power_of_two_and_shift (x n : Nat) : Nat :=
  (x + (1 <<< n) - 1) >>> n

/-- Mirrors the `SB_SIZE_LOG2` constant inside `detect_scene_changes`. -/
def SB_SIZE_LOG2 : Nat := 6

/-- The `(alloc_height, stride)` computation at the top of
`detect_scene_changes` (src/lib.rs lines 136-145): native dimensions in
`Fast` mode, otherwise both rounded up to the next multiple of
`1 << SB_SIZE_LOG2 = 64`. -/
def detectStrideAlloc (opts : DetectionOptions) (vd : VideoDetails) : Nat × Nat :=
  if opts.analysis_speed = SceneDetectionSpeed.Fast then
    (vd.height, vd.width)
  else
    (align_power_of_two_and_shift vd.height SB_SIZE_LOG2 <<< SB_SIZE_LOG2,
     align_power_of_two_and_shift vd.width SB_SIZE_LOG2 <<< SB_SIZE_LOG2)

/-!
Abstract decoder for the driver claims.

`detect_scene_changes` interacts with a backend only through
`stride_matches`, `receive_frame_init` and `receive_frame`, and it stops
issuing decode calls at the first failure (priming returns early; the main
loop breaks).  A backend together with "a stream with N decodable frames"
is therefore fully characterized, as far as the driver's control flow and
all index bookkeeping are concerned, by: the frame count `n`, the frame
payloads `frames`, the `stride_matches` answer `sm`, and the stream
descriptor.  `consumed` is the number of decode attempts made so far; a
call succeeds exactly while `consumed < n` (both real backends stop
producing frames at end of stream).
-/
structure StreamDec (F : Type) where
  n : Nat
  frames : Nat → F
  sm : Bool
  video_details : VideoDetails
  consumed : Nat

/-- Abstract-stream `receive_frame_init`: yields the next frame while the
stream has one, `none` at end of stream; every attempt advances. -/
def StreamDec.receive_frame_init (d : StreamDec F) (_stride _alloc_height : Nat) :
    Option F × StreamDec F :=
  if d.consumed < d.n then
    (some (d.frames d.consumed), { d with consumed := d.consumed + 1 })
  else
    (none, { d with consumed := d.consumed + 1 })

/-- Abstract-stream `receive_frame`: decodes into the given buffer,
returning `false` at end of stream. -/
def StreamDec.receive_frame (d : StreamDec F) (alloc : F) :
    Bool × F × StreamDec F :=
  if d.consumed < d.n then
    (true, d.frames d.consumed, { d with consumed := d.consumed + 1 })
  else
    (false, alloc, { d with consumed := d.consumed + 1 })

/-- Abstract-stream `stride_matches`: a fixed answer, no state change
(matches both backends: FFmpeg constantly `true`, VapourSynth inspects the
upcoming frame without consuming it). -/
def StreamDec.stride_matches (d : StreamDec F) (_stride _alloc_height : Nat) :
    Bool × StreamDec F :=
  (d.sm, d)

/-!
The driver `detect_scene_changes` (src/lib.rs lines 124-420).

The analysis engine (rav1e's `SceneChangeDetector`, external to this
repository) is abstracted as a state-threaded oracle
`analyze : A → List F → Nat → Nat → Bool × A` receiving the window's
frames, the current frame number and the most recent keyframe, exactly as
`analyze_next_frame` does.  The `fill_vec`/`map_vec`/`frame_copies`
machinery of the source converts the window's frames one-to-one into the
`&[&Arc<Frame<T>>]` slice handed to the engine; it affects only the buffer
representation, never the window's length, order, or any index, so the
model hands the engine the window's frames directly.  The optional progress
callback is side-effect-only and is omitted.  Alongside the results, the
model returns the instrumentation log of `(frameno, previous_keyframe)`
argument pairs passed to successive `analyze_next_frame` calls.
-/

/-- Priming loop of `detect_scene_changes` (src/lib.rs lines 218-250):
`for i in 0..lookahead_distance + 1` pushes `(i, frame)`; on a failed
decode the function returns early (`none` here).  `left` counts remaining
iterations. -/
def primeLoop (stride alloc_height : Nat) (d : StreamDec F) (i left : Nat)
    (q : List (Nat × F)) : Option (List (Nat × F)) × StreamDec F :=
  match left with
  | 0 => (some q, d)
  | left' + 1 =>
    match d.receive_frame_init stride alloc_height with
    | (some frame, d') => primeLoop stride alloc_height d' (i + 1) left' (q ++ [(i, frame)])
    | (none, d') => (none, d')

/-- Main decode loop of `detect_scene_changes` (src/lib.rs lines 320-382).
Each iteration rotates the oldest entry to the back, computes
`new_last = last index + 1` (read after the removal, before the push),
decodes into the rotated buffer, and on success analyzes frame `frameno`
and post-increments `frameno`; on decode failure it pops the stale entry
and breaks.  `remaining` is `d.n - d.consumed` at every call (the driver
establishes this invariant), so the `0` case is exactly the
failed-decode/break iteration; the state effect of that failed call is
still applied. -/
def mainLoop (analyze : A → List F → Nat → Nat → Bool × A) (remaining : Nat)
    (d : StreamDec F) (a : A) (q : List (Nat × F)) (kfs : List Nat)
    (frameno : Nat) (lg : List (Nat × Nat)) :
    StreamDec F × A × List (Nat × F) × List Nat × Nat × List (Nat × Nat) :=
  match q with
  | [] => (d, a, [], kfs, frameno, lg)
  | first :: rest =>
    match remaining with
    | 0 =>
      let r := d.receive_frame first.2
      (r.2.2, a, rest, kfs, frameno, lg)
    | rem + 1 =>
      let new_last := (rest.getLastD first).1 + 1
      match d.receive_frame first.2 with
      | (true, f, d') =>
        let q' := rest ++ [(new_last, f)]
        let prev := kfs.getLastD 0
        let step := analyze a (q'.map Prod.snd) frameno prev
        let kfs' := if step.1 then kfs ++ [frameno] else kfs
        mainLoop analyze rem d' step.2 q' kfs' (frameno + 1) (lg ++ [(frameno, prev)])
      | (false, _, d') => (d', a, rest, kfs, frameno, lg)

/-- Drain loop of `detect_scene_changes` (src/lib.rs lines 384-414):
`while frame_queue.len() != 1`, each iteration pre-increments `frameno`,
analyzes, then removes the oldest entry. -/
def drainLoop (analyze : A → List F → Nat → Nat → Bool × A) :
    List (Nat × F) → A → List Nat → Nat → List (Nat × Nat) →
    List Nat × Nat × List (Nat × Nat) × A
  | [], a, kfs, frameno, lg => (kfs, frameno, lg, a)
  | [_], a, kfs, frameno, lg => (kfs, frameno, lg, a)
  | x :: y :: rest, a, kfs, frameno, lg =>
    let frameno' := frameno + 1
    let prev := kfs.getLastD 0
    let step := analyze a ((x :: y :: rest).map Prod.snd) frameno' prev
    let kfs' := if step.1 then kfs ++ [frameno'] else kfs
    drainLoop analyze (y :: rest) step.2 kfs' frameno' (lg ++ [(frameno', prev)])

/-- Mirrors `detect_scene_changes` (src/lib.rs lines 124-420).  `none`
models the panic of `assert!(opts.lookahead_distance >= 1)`; every other
path returns `some` (the remaining unwraps in the source act on
structurally nonempty vectors along these paths).  Returns the results and
the log of `(frameno, previous_keyframe)` pairs passed to the engine. -/
def detect_scene_changes (d0 : StreamDec F)
    (analyze : A → List F → Nat → Nat → Bool × A) (a0 : A)
    (opts : DetectionOptions) :
    Option (DetectionResults × List (Nat × Nat)) :=
  if opts.lookahead_distance < 1 then none
  else
    let vd := d0.video_details
    let p := detectStrideAlloc opts vd
    let alloc_height := p.1
    let stride := p.2
    let keyframes : List Nat := [0]
    let frameno : Nat := 0
    let smr := d0.stride_matches stride alloc_height
    let d1 := smr.2
    match primeLoop stride alloc_height d1 0 (opts.lookahead_distance + 1) [] with
    | (none, _) => some (⟨keyframes, frameno⟩, [])
    | (some q, d2) =>
      let frameno := frameno + 1
      match d2.receive_frame_init stride alloc_height with
      | (none, _) => some (⟨keyframes, frameno⟩, [])
      | (some f, d3) =>
        let q := q ++ [(opts.lookahead_distance + 1, f)]
        let prev := keyframes.getLastD 0
        let step := analyze a0 (q.map Prod.snd) frameno prev
        let keyframes := if step.1 then keyframes ++ [frameno] else keyframes
        let lg : List (Nat × Nat) := [(frameno, prev)]
        let frameno := frameno + 1
        let r := mainLoop analyze (d3.n - d3.consumed) d3 step.2 q keyframes frameno lg
        let dr := drainLoop analyze r.2.2.1 r.2.1 r.2.2.2.1 r.2.2.2.2.1 r.2.2.2.2.2
        some (⟨dr.1, dr.2.1⟩, dr.2.2.1)

/-- Concrete stream descriptor used by the evaluation theorems. -/
def testVD : VideoDetails :=
  ⟨640, 480, 8, ChromaSampling.Cs420, ChromaSamplePosition.Unknown, ⟨30, 1⟩, 0⟩

/-- Detection options with the given lookahead distance. -/
def testOpts (L : Nat) : DetectionOptions :=
  ⟨SceneDetectionSpeed.Standard, true, none, none, L⟩

/-- An abstract stream of `n` decodable frames (frame `i` carries payload `i`). -/
def testDec (n : Nat) : StreamDec Nat :=
  ⟨n, fun i => i, true, testVD, 0⟩

/-- An analysis engine that affirms a scene cut on every call (the engine is
opaque to this repository, so any answer sequence is admissible). -/
def alwaysCut : Unit → List Nat → Nat → Nat → Bool × Unit :=
  fun _ _ _ _ => (true, ())

/-- C1: refuted by evaluation.  With `lookahead_distance = 1`, a stream of
`N = 3` decodable frames (`N = lookahead_distance + 2`) and an engine that
affirms every cut, `detect_scene_changes` returns
`scene_changes = [0, 1, 3]` with `frame_count = 3`: the list contains the
index `3 ≥ frame_count`, because the drain loop pre-increments `frameno`
before its analysis call, so the final call is made with frame number `N`.
The claim requires every reported index to be `< frame_count`. -/
theorem detect_scene_changes_emits_index_at_frame_count :
    detect_scene_changes (testDec 3) alwaysCut () (testOpts 1) =
      some (⟨[0, 1, 3], 3⟩, [(1, 0), (3, 1)]) := rfl

/-- C2: refuted by evaluation.  With `lookahead_distance = 1` and a stream
of `N = 1` decodable frames (`N < lookahead_distance + 2`), the pass
terminates during priming with `frame_count = 0`, not `N = 1`: `frameno`
is never incremented inside the priming loop.  The keyframe list is `[0]`
and no analysis call occurred (empty log), as the claim states. -/
theorem detect_scene_changes_short_stream_frame_count :
    detect_scene_changes (testDec 1) alwaysCut () (testOpts 1) =
      some (⟨[0], 0⟩, []) := rfl

/-- C3: refuted by evaluation.  With `lookahead_distance = 1` and `N = 4`
decodable frames, the `(frameno, previous_keyframe)` pairs passed to
successive `analyze_next_frame` calls are `[(1, 0), (2, 1), (4, 2)]`: the
frame-number sequence `1, 2, 4` jumps by 2 between the main loop and the
drain loop (frame 3 is never analyzed), contradicting the claim that
consecutive calls increase by exactly 1.  The most-recent-keyframe
components do equal the last keyframe appended strictly before each call. -/
theorem detect_scene_changes_analyze_frameno_skips :
    detect_scene_changes (testDec 4) alwaysCut () (testOpts 1) =
      some (⟨[0, 1, 2, 4], 4⟩, [(1, 0), (2, 1), (4, 2)]) := rfl

/-- C10: `detect_scene_changes` fails its leading
`assert!(opts.lookahead_distance >= 1)` (modelled as `none`) exactly when
`lookahead_distance = 0`, for every decoder backend, stream and analysis
engine — in particular the panic happens before any decoder call can
matter, and for `lookahead_distance ≥ 1` the assertion never fails. -/
theorem detect_scene_changes_asserts_lookahead :
    ∀ (F A : Type) (d0 : StreamDec F)
      (analyze : A → List F → Nat → Nat → Bool × A) (a0 : A)
      (opts : DetectionOptions),
      detect_scene_changes d0 analyze a0 opts = none ↔
        opts.lookahead_distance = 0 := by
  intro F A d0 analyze a0 opts
  unfold detect_scene_changes
  split
  · next h => simp only [true_iff]; omega
  · next h =>
    constructor
    · intro hc
      exfalso
      revert hc
      dsimp only
      split
      · simp
      · split <;> simp
    · intro h0
      omega

/-- C6: the target stride and allocation height used by
`detect_scene_changes` are the stream's native width/height in `Fast`
mode, and otherwise each native dimension rounded up to the next multiple
of 64; moreover for every `x`,
`align_power_of_two_and_shift x 6 <<< 6` is the least multiple of 64 that
is `≥ x`. -/
theorem detect_stride_alloc_superblock_aligned :
    ∀ (opts : DetectionOptions) (vd : VideoDetails),
      (opts.analysis_speed = SceneDetectionSpeed.Fast →
        detectStrideAlloc opts vd = (vd.height, vd.width)) ∧
      (opts.analysis_speed = SceneDetectionSpeed.Standard →
        detectStrideAlloc opts vd =
          (align_power_of_two_and_shift vd.height 6 <<< 6,
           align_power_of_two_and_shift vd.width 6 <<< 6)) ∧
      (∀ x : Nat,
        x ≤ align_power_of_two_and_shift x 6 <<< 6 ∧
        align_power_of_two_and_shift x 6 <<< 6 % 64 = 0 ∧
        ∀ m : Nat, x ≤ m → m % 64 = 0 →
          align_power_of_two_and_shift x 6 <<< 6 ≤ m) := by
  have key : ∀ x : Nat, align_power_of_two_and_shift x 6 <<< 6 = (x + 63) / 64 * 64 := by
    intro x
    simp [align_power_of_two_and_shift, Nat.shiftLeft_eq, Nat.shiftRight_eq_div_pow]
  intro opts vd
  refine ⟨fun hf => by simp [detectStrideAlloc, hf], fun hs => ?_, fun x => ?_⟩
  · have : opts.analysis_speed ≠ SceneDetectionSpeed.Fast := by
      rw [hs]; intro hcon; cases hcon
    simp [detectStrideAlloc, SB_SIZE_LOG2, this]
  · refine ⟨?_, ?_, ?_⟩
    · rw [key]; omega
    · rw [key]; omega
    · intro m hxm hm; rw [key]; omega

/-- Witness for C6: `Standard` mode with a 640 by 480 stream rounds both
dimensions up to multiples of 64, and 512 is the least such above 480. -/
theorem detect_stride_alloc_superblock_aligned_witness :
    detectStrideAlloc (testOpts 5) testVD =
      (align_power_of_two_and_shift 480 6 <<< 6,
       align_power_of_two_and_shift 640 6 <<< 6) ∧
    480 ≤ align_power_of_two_and_shift 480 6 <<< 6 ∧
    align_power_of_two_and_shift 480 6 <<< 6 ≤ 512 :=
  ⟨(detect_stride_alloc_superblock_aligned (testOpts 5) testVD).2.1 rfl,
   ((detect_stride_alloc_superblock_aligned (testOpts 5) testVD).2.2 480).1,
   ((detect_stride_alloc_superblock_aligned (testOpts 5) testVD).2.2 480).2.2
     512 (by decide) (by decide)⟩

/-!
VapourSynth backend (src/vapoursynth.rs).

A `FrameRef` is modelled by its observable interface in the source:
`stride(0)` (bytes per row), `height(0)` (rows backing plane 0), and the
backing memory reachable through `data_ptr(0)` (a byte list).  The script
node is a partial map from frame index to frame, mirroring
`node.get_frame(frame_idx)` (`Err` becomes `none`).  The unused `core`
field is omitted.
-/
structure VSFrame where
  strideBytes : Nat
  heightPx : Nat
  bytes : List Nat
deriving DecidableEq, Repr

/-- Mirrors `VapoursynthDecoder` (src/vapoursynth.rs lines 9-15). -/
structure VapoursynthDecoder where
  frame_idx : Nat
  node : Nat → Option VSFrame
  video_details : VideoDetails

/-- Mirrors `VapoursynthDecoder::receive_frame_init` (lines 80-86): fetch
the frame at the cursor, then increment the cursor whether or not the
fetch succeeded. -/
def VapoursynthDecoder.receive_frame_init (d : VapoursynthDecoder) :
    Option VSFrame × VapoursynthDecoder :=
  let frame := d.node d.frame_idx
  (frame, { d with frame_idx := d.frame_idx + 1 })

/-- Mirrors `VapoursynthDecoder::receive_frame` (lines 88-99): fetch the
frame at the cursor into the given buffer, incrementing the cursor on
success and failure alike. -/
def VapoursynthDecoder.receive_frame (d : VapoursynthDecoder) (x : VSFrame) :
    Bool × VSFrame × VapoursynthDecoder :=
  let frame := d.node d.frame_idx
  let d' := { d with frame_idx := d.frame_idx + 1 }
  match frame with
  | some f => (true, f, d')
  | none => (false, x, d')

/-- Mirrors `VapoursynthDecoder::stride_matches` (lines 286-296): peek at
the frame at the current cursor (without advancing) and compare its byte
stride and height against the request; `sizeT` is `size_of::<T>()`. -/
def VapoursynthDecoder.stride_matches (sizeT : Nat) (d : VapoursynthDecoder)
    (stride alloc_height : Nat) : Bool × VapoursynthDecoder :=
  match d.node d.frame_idx with
  | none => (false, d)
  | some frame =>
    (decide (frame.strideBytes = stride * sizeT ∧ alloc_height ≤ frame.heightPx), d)

/-- Mirrors `VapoursynthDecoder::get_video_details`. -/
def VapoursynthDecoder.get_video_details (d : VapoursynthDecoder) : VideoDetails :=
  d.video_details

/-- Mirrors `VapoursynthDecoder::get_bit_depth` (both the inherent method,
lines 75-77, and the trait method, lines 310-312, have this body). -/
def VapoursynthDecoder.get_bit_depth (d : VapoursynthDecoder) : Nat :=
  d.video_details.bit_depth

/-!
Plane and frame-view model (rav1e's `Plane`/`PlaneConfig`/`PlaneData` and
decode.rs's `FrameView`).  The pixel-copy routine `copy_from_raw_u8` is
rav1e library code, external to this repository, so a plane's data is a
symbolic trace of the buffer operations the source performs on it:
a fresh allocation (`PlaneData::new(len)`), an aliasing view over backend
memory (`PlaneData::new_ref` over a raw slice), an aliasing view over
another plane's storage (`PlaneData::new_ref(&alloc.data[..])`), or the
result of `copy_from_raw_u8(src_slice, src_stride, bytes_per_sample)`
applied to a buffer.
-/
inductive PlaneDataM where
  | new (len : Nat)
  | refFrameData (src : List Nat) (len : Nat)
  | refPlaneData (d : PlaneDataM)
  | copyFromRawU8 (dst : PlaneDataM) (srcBytes : List Nat) (srcLen srcStride bytesPerSample : Nat)
deriving DecidableEq, Repr

/-- Mirrors rav1e's `PlaneConfig`, field for field. -/
structure PlaneConfig where
  alloc_height : Nat
  height : Nat
  stride : Nat
  width : Nat
  xdec : Nat
  xorigin : Nat
  xpad : Nat
  ydec : Nat
  yorigin : Nat
  ypad : Nat
deriving DecidableEq, Repr

/-- Mirrors rav1e's `Plane`: a configuration and its backing data. -/
structure Plane where
  cfg : PlaneConfig
  data : PlaneDataM
deriving DecidableEq, Repr

/-- A three-plane `Frame` (luma plus two placeholder chroma planes). -/
structure FrameM where
  luma : Plane
  chromaU : Plane
  chromaV : Plane
deriving DecidableEq, Repr

/-- Mirrors `FrameView` from src/decode.rs: `Ref` wraps a
`ManuallyDrop<Frame<T>>` borrowed view, `Owned` a self-owned frame. -/
inductive FrameView where
  | Ref (f : FrameM)
  | Owned (f : FrameM)
deriving DecidableEq, Repr

/-- The `empty_plane` closure used by the VapourSynth backend (and the
driver): zero geometry, `PlaneData::new(0)`. -/
def empty_plane : Plane :=
  ⟨⟨0, 0, 0, 0, 0, 0, 0, 0, 0, 0⟩, PlaneDataM.new 0⟩

/-- The `plane_cfg_luma` record built by the backends: requested geometry
with all decimation/origin/padding fields zero. -/
def plane_cfg_luma (alloc_height height stride width : Nat) : PlaneConfig :=
  ⟨alloc_height, height, stride, width, 0, 0, 0, 0, 0, 0⟩

/-- Mirrors `VapoursynthDecoder::get_frame_ref` (lines 109-207).  If
`strict` is off or the native layout satisfies the request, return a
`FrameView::Ref` aliasing `stride * height` samples of backend memory.
Otherwise the source executes `alloc.unwrap()`: with `alloc = none` that
panics (modelled as `none`); with a buffer it copies the native plane into
it via `copy_from_raw_u8` and returns a `Ref` aliasing that buffer.  The
second component of the result is the caller's buffer after the call. -/
def VapoursynthDecoder.get_frame_ref (sizeT : Nat) (frame : VSFrame)
    (height width stride alloc_height : Nat) (strict : Bool)
    (alloc : Option Plane) : Option (FrameView × Option Plane) :=
  let stride_adjusted := stride * sizeT
  if strict = false ∨ (frame.strideBytes = stride_adjusted ∧ alloc_height ≤ frame.heightPx) then
    some (FrameView.Ref
      ⟨⟨plane_cfg_luma alloc_height height stride width,
        PlaneDataM.refFrameData frame.bytes (stride * height)⟩,
       empty_plane, empty_plane⟩, alloc)
  else
    match alloc with
    | none => none
    | some a =>
      let d' := PlaneDataM.copyFromRawU8 a.data frame.bytes
        (frame.strideBytes * frame.heightPx) frame.strideBytes sizeT
      let a' : Plane := { a with data := d' }
      some (FrameView.Ref
        ⟨⟨plane_cfg_luma alloc_height height stride width,
          PlaneDataM.refPlaneData a'.data⟩,
         empty_plane, empty_plane⟩, some a')

/-- Mirrors `VapoursynthDecoder::make_copy` (lines 210-279): with a
caller-supplied buffer, copy the native plane into it and return `None`;
without one, allocate `stride * alloc_height` samples, copy, and return
`Some` of the new plane.  The second component is the caller's buffer
after the call. -/
def VapoursynthDecoder.make_copy (sizeT : Nat) (frame : VSFrame)
    (height width stride alloc_height : Nat) (alloc : Option Plane) :
    Option Plane × Option Plane :=
  match alloc with
  | some a =>
    let d' := PlaneDataM.copyFromRawU8 a.data frame.bytes
      (frame.strideBytes * frame.heightPx) frame.strideBytes sizeT
    (none, some { a with data := d' })
  | none =>
    let f : Plane :=
      ⟨plane_cfg_luma alloc_height height stride width,
       PlaneDataM.new (stride * alloc_height)⟩
    let d' := PlaneDataM.copyFromRawU8 f.data frame.bytes
      (frame.strideBytes * frame.heightPx) frame.strideBytes sizeT
    (some { f with data := d' }, none)

/-!
FFmpeg backend (src/ffmpeg.rs).

The underlying libavcodec decoder is external library state, abstracted as
a type `D` with the three operations the adapter invokes:
`recv : D → Bool × D` (`decoder.receive_frame(alloc).is_ok()` plus the
resulting codec state), `sendP : D → Nat → D` (`send_packet`, keyed by the
packet's stream index — the only packet datum the adapter reads), and
`sendE : D → D` (`send_eof`).  The packet iterator is a list of stream
indices (a finite file yields no packet after exhaustion).  `eof_signals`
is a ghost counter of `send_eof` invocations, used to state the
at-most-once property; no other field reads it. -/
structure FfmpegDecoder (D : Type) where
  packets : List Nat
  decoder : D
  video_details : VideoDetails
  stream_index : Nat
  receiving_eof_frames : Bool
  receiving_frames : Bool
  eof_signals : Nat

/-- An `frame::Video` handed out by the FFmpeg adapter, observed through
`data(0)`; its geometry always equals the requested stride/alloc height
because `receive_frame_init` creates it with those dimensions. -/
structure FFVideoFrame where
  bytes : List Nat
deriving DecidableEq, Repr

/-- The FFmpeg backend's `empty_plane` closure (src/ffmpeg.rs lines
206-220) uses `PlaneData::new_ref(&[])`, unlike the other backend. -/
def empty_plane_ff : Plane :=
  ⟨⟨0, 0, 0, 0, 0, 0, 0, 0, 0, 0⟩, PlaneDataM.refFrameData [] 0⟩

/-- Mirrors `FfmpegDecoder::get_frame_ref` (lines 197-251): the `strict`
and `alloc` parameters are ignored and the result is always a
`FrameView::Ref` aliasing `stride * height` samples of the frame's own
buffer ("Dimensions are always as requested"). -/
def FfmpegDecoder.get_frame_ref (frame : FFVideoFrame)
    (height width stride alloc_height : Nat) (_strict : Bool)
    (_alloc : Option Plane) : FrameView :=
  FrameView.Ref
    ⟨⟨plane_cfg_luma alloc_height height stride width,
      PlaneDataM.refFrameData frame.bytes (stride * height)⟩,
     empty_plane_ff, empty_plane_ff⟩

/-- Mirrors `FfmpegDecoder::make_copy` (lines 254-263): a stub that always
returns `None` and copies nothing ("This function should not be called").
The second component is the caller's buffer after the call. -/
def FfmpegDecoder.make_copy (_frame : FFVideoFrame)
    (_height _width _stride _alloc_height : Nat) (alloc : Option Plane) :
    Option Plane × Option Plane :=
  (none, alloc)

/-- Mirrors `FfmpegDecoder::stride_matches` (lines 265-268): the buffer is
caller-shaped, so the stride always matches; no state change. -/
def FfmpegDecoder.stride_matches (s : FfmpegDecoder D)
    (_stride _alloc_height : Nat) : Bool × FfmpegDecoder D :=
  (true, s)

/-- Mirrors `FfmpegDecoder::get_video_details`. -/
def FfmpegDecoder.get_video_details (s : FfmpegDecoder D) : VideoDetails :=
  s.video_details

/-- Mirrors `FfmpegDecoder::get_bit_depth` (lines 286-288). -/
def FfmpegDecoder.get_bit_depth (s : FfmpegDecoder D) : Nat :=
  s.video_details.bit_depth

/-- Mirrors `FfmpegDecoder::receive_frame` (lines 151-191), the packet/
frame state machine loop.  While `receiving_frames`, pull from the codec:
a success returns `true`; a failure clears the flag and falls through to
the packet fetch in the same iteration (the `receiving_eof_frames` check
is an `else if`, skipped this iteration).  While `receiving_eof_frames`
(and not `receiving_frames`), return whatever one more codec pull yields.
Otherwise fetch a packet: a packet of a foreign stream index is skipped,
one of the tracked index is sent (`send_packet`) and `receiving_frames`
is set; with no packets left, `send_eof` is issued (ghost-counted) and
`receiving_eof_frames` is set. -/
def FfmpegDecoder.receive_frame (recv : D → Bool × D) (sendP : D → Nat → D)
    (sendE : D → D) (s : FfmpegDecoder D) : Bool × FfmpegDecoder D :=
  if s.receiving_frames then
    match recv s.decoder with
    | (true, d) => (true, { s with decoder := d })
    | (false, d) =>
      match _hp : s.packets with
      | p :: rest =>
        if p ≠ s.stream_index then
          FfmpegDecoder.receive_frame recv sendP sendE
            { s with decoder := d, packets := rest, receiving_frames := false }
        else
          FfmpegDecoder.receive_frame recv sendP sendE
            { s with decoder := sendP d p, packets := rest, receiving_frames := true }
      | [] =>
        FfmpegDecoder.receive_frame recv sendP sendE
          { s with decoder := sendE d, receiving_frames := false,
                   receiving_eof_frames := true, eof_signals := s.eof_signals + 1 }
  else if s.receiving_eof_frames then
    match recv s.decoder with
    | (ok, d) => (ok, { s with decoder := d })
  else
    match _hp : s.packets with
    | p :: rest =>
      if p ≠ s.stream_index then
        FfmpegDecoder.receive_frame recv sendP sendE { s with packets := rest }
      else
        FfmpegDecoder.receive_frame recv sendP sendE
          { s with decoder := sendP s.decoder p, packets := rest,
                   receiving_frames := true }
    | [] =>
      FfmpegDecoder.receive_frame recv sendP sendE
        { s with decoder := sendE s.decoder, receiving_eof_frames := true,
                 eof_signals := s.eof_signals + 1 }
termination_by
  2 * s.packets.length + (if s.receiving_eof_frames then 0 else 1) +
    (if s.receiving_frames then 1 else 0)
decreasing_by
  all_goals simp_all
  all_goals (repeat' split) <;> omega

/-- C9: for both backends, `get_bit_depth` returns exactly
`get_video_details().bit_depth`; quantifying over every decoder state
covers every point after initialization. -/
theorem get_bit_depth_matches_video_details :
    (∀ d : VapoursynthDecoder,
      d.get_bit_depth = d.get_video_details.bit_depth) ∧
    (∀ (D : Type) (s : FfmpegDecoder D),
      s.get_bit_depth = s.get_video_details.bit_depth) :=
  ⟨fun _ => rfl, fun _ _ => rfl⟩

/-- C7: in the VapourSynth adapter, `receive_frame` and
`receive_frame_init` advance the cursor `frame_idx` by exactly 1 whether
the fetch succeeds or fails, while `stride_matches` returns the decoder
state unchanged and its verdict is exactly a geometry check of the frame
at the current cursor. -/
theorem vapoursynth_cursor_discipline :
    ∀ (d : VapoursynthDecoder) (x : VSFrame) (sizeT stride alloc_height : Nat),
      (d.receive_frame_init.2.frame_idx = d.frame_idx + 1) ∧
      ((d.receive_frame x).2.2.frame_idx = d.frame_idx + 1) ∧
      ((VapoursynthDecoder.stride_matches sizeT d stride alloc_height).2 = d) ∧
      ((VapoursynthDecoder.stride_matches sizeT d stride alloc_height).1 = true ↔
        ∃ f, d.node d.frame_idx = some f ∧
          f.strideBytes = stride * sizeT ∧ alloc_height ≤ f.heightPx) := by
  intro d x sizeT stride alloc_height
  refine ⟨rfl, ?_, ?_, ?_⟩
  · unfold VapoursynthDecoder.receive_frame
    cases d.node d.frame_idx <;> rfl
  · unfold VapoursynthDecoder.stride_matches
    cases d.node d.frame_idx <;> rfl
  · unfold VapoursynthDecoder.stride_matches
    cases hf : d.node d.frame_idx with
    | none => simp
    | some f =>
      simp only [decide_eq_true_eq]
      constructor
      · intro hgeo
        exact ⟨f, rfl, hgeo.1, hgeo.2⟩
      · rintro ⟨g, hg, h1, h2⟩
        cases Option.some.inj hg
        exact ⟨h1, h2⟩

/-- A VapourSynth frame whose native stride (8 bytes) differs from the
request used in the counterexamples. -/
def vsTestFrame : VSFrame := ⟨8, 4, List.replicate 32 7⟩

/-- C4 counterexample: `VapoursynthDecoder::get_frame_ref` with
`strict = true`, a native layout that does not satisfy the request
(native stride 8 bytes, requested `stride * size_of::<T>() = 4 * 1`), and
no caller-supplied `alloc` buffer does not allocate a fresh `Owned`
buffer as the claim states: it executes `alloc.unwrap()` on `None` and
panics (modelled as `none`). -/
theorem get_frame_ref_strict_no_alloc_panics :
    VapoursynthDecoder.get_frame_ref 1 vsTestFrame 4 4 4 4 true none = none := rfl

/-- C4 amended: if `strict` is false or the native stride equals the
requested byte stride and the native height is at least the requested
allocation height, both backends produce a `FrameView::Ref` aliasing
backend memory with no copy; if `strict` is true and the native layout
does not satisfy the request, the VapourSynth backend copies into the
caller-supplied `alloc` buffer when one is provided and returns a `Ref`
aliasing that buffer, and panics when `alloc` is absent (no `Owned`
buffer is ever produced); the FFmpeg backend ignores `strict` and always
returns an aliasing `Ref`. -/
theorem get_frame_ref_aliasing_contract :
    ∀ (sizeT : Nat) (frame : VSFrame) (height width stride alloc_height : Nat)
      (strict : Bool) (alloc : Option Plane),
      ((strict = false ∨
          (frame.strideBytes = stride * sizeT ∧ alloc_height ≤ frame.heightPx)) →
        VapoursynthDecoder.get_frame_ref sizeT frame height width stride
            alloc_height strict alloc =
          some (FrameView.Ref
            ⟨⟨plane_cfg_luma alloc_height height stride width,
              PlaneDataM.refFrameData frame.bytes (stride * height)⟩,
             empty_plane, empty_plane⟩, alloc)) ∧
      (strict = true →
        ¬(frame.strideBytes = stride * sizeT ∧ alloc_height ≤ frame.heightPx) →
        VapoursynthDecoder.get_frame_ref sizeT frame height width stride
            alloc_height strict none = none) ∧
      (∀ a : Plane, strict = true →
        ¬(frame.strideBytes = stride * sizeT ∧ alloc_height ≤ frame.heightPx) →
        VapoursynthDecoder.get_frame_ref sizeT frame height width stride
            alloc_height strict (some a) =
          some (FrameView.Ref
            ⟨⟨plane_cfg_luma alloc_height height stride width,
              PlaneDataM.refPlaneData (PlaneDataM.copyFromRawU8 a.data frame.bytes
                (frame.strideBytes * frame.heightPx) frame.strideBytes sizeT)⟩,
             empty_plane, empty_plane⟩,
           some ⟨a.cfg, PlaneDataM.copyFromRawU8 a.data frame.bytes
             (frame.strideBytes * frame.heightPx) frame.strideBytes sizeT⟩)) ∧
      (∀ f2 : FFVideoFrame,
        FfmpegDecoder.get_frame_ref f2 height width stride alloc_height
            strict alloc =
          FrameView.Ref
            ⟨⟨plane_cfg_luma alloc_height height stride width,
              PlaneDataM.refFrameData f2.bytes (stride * height)⟩,
             empty_plane_ff, empty_plane_ff⟩) := by
  intro sizeT frame height width stride alloc_height strict alloc
  refine ⟨fun hok => ?_, fun hs hmis => ?_, fun a hs hmis => ?_, fun f2 => rfl⟩
  · unfold VapoursynthDecoder.get_frame_ref
    rw [if_pos hok]
  · unfold VapoursynthDecoder.get_frame_ref
    rw [if_neg]
    rintro (hfalse | hgeo)
    · rw [hs] at hfalse; cases hfalse
    · exact hmis hgeo
  · unfold VapoursynthDecoder.get_frame_ref
    rw [if_neg]
    rintro (hfalse | hgeo)
    · rw [hs] at hfalse; cases hfalse
    · exact hmis hgeo

/-- Witness for C4 amended: concrete instances of the aliasing branch, the
panic branch, the copy-into-alloc branch, and the FFmpeg branch. -/
theorem get_frame_ref_aliasing_contract_witness :
    VapoursynthDecoder.get_frame_ref 1 vsTestFrame 4 4 8 4 true none =
      some (FrameView.Ref
        ⟨⟨plane_cfg_luma 4 4 8 4, PlaneDataM.refFrameData vsTestFrame.bytes 32⟩,
         empty_plane, empty_plane⟩, none) ∧
    VapoursynthDecoder.get_frame_ref 1 vsTestFrame 4 4 4 4 true
        (some empty_plane) =
      some (FrameView.Ref
        ⟨⟨plane_cfg_luma 4 4 4 4,
          PlaneDataM.refPlaneData (PlaneDataM.copyFromRawU8 (PlaneDataM.new 0)
            vsTestFrame.bytes 32 8 1)⟩,
         empty_plane, empty_plane⟩,
       some ⟨empty_plane.cfg, PlaneDataM.copyFromRawU8 (PlaneDataM.new 0)
         vsTestFrame.bytes 32 8 1⟩) ∧
    FfmpegDecoder.get_frame_ref ⟨[1, 2, 3]⟩ 4 4 4 4 true none =
      FrameView.Ref
        ⟨⟨plane_cfg_luma 4 4 4 4, PlaneDataM.refFrameData [1, 2, 3] 16⟩,
         empty_plane_ff, empty_plane_ff⟩ := by
  refine ⟨?_, ?_, ?_⟩
  · exact (get_frame_ref_aliasing_contract 1 vsTestFrame 4 4 8 4 true none).1
      (Or.inr (by decide))
  · exact (get_frame_ref_aliasing_contract 1 vsTestFrame 4 4 4 4 true
      (some empty_plane)).2.2.1 empty_plane rfl (by decide)
  · exact (get_frame_ref_aliasing_contract 1 vsTestFrame 4 4 4 4 true
      none).2.2.2 ⟨[1, 2, 3]⟩

/-- C5 counterexample: `FfmpegDecoder::make_copy` called without a
caller-supplied `alloc` buffer returns `None` (and copies nothing) — it
is a stub — whereas the claim requires every backend to allocate a plane,
copy into it, and return `Some` of it in this case. -/
theorem ffmpeg_make_copy_stub_returns_none :
    FfmpegDecoder.make_copy ⟨[1, 2, 3]⟩ 4 4 4 4 none = (none, none) := rfl

/-- C5 amended: the VapourSynth backend's `make_copy` copies into the
caller-supplied buffer and returns `None` when `alloc` is provided, and
allocates its own `stride * alloc_height` plane, copies into it, and
returns `Some` of that plane when `alloc` is absent; the FFmpeg backend's
`make_copy` is an uncalled stub that always returns `None` and performs no
copy (its `stride_matches` is constantly true, so the driver never takes
the copy path for it). -/
theorem make_copy_buffer_contract :
    ∀ (sizeT : Nat) (frame : VSFrame) (height width stride alloc_height : Nat),
      (∀ a : Plane,
        VapoursynthDecoder.make_copy sizeT frame height width stride
            alloc_height (some a) =
          (none, some ⟨a.cfg, PlaneDataM.copyFromRawU8 a.data frame.bytes
            (frame.strideBytes * frame.heightPx) frame.strideBytes sizeT⟩)) ∧
      (VapoursynthDecoder.make_copy sizeT frame height width stride
          alloc_height none =
        (some ⟨plane_cfg_luma alloc_height height stride width,
          PlaneDataM.copyFromRawU8 (PlaneDataM.new (stride * alloc_height))
            frame.bytes (frame.strideBytes * frame.heightPx)
            frame.strideBytes sizeT⟩, none)) ∧
      (∀ (f2 : FFVideoFrame) (alloc : Option Plane),
        FfmpegDecoder.make_copy f2 height width stride alloc_height alloc =
          (none, alloc)) :=
  fun _ _ _ _ _ _ => ⟨fun _ => rfl, rfl, fun _ _ => rfl⟩

/-!
Reachability and invariant for the FFmpeg receive_frame state machine.
-/

/-- The decoder state produced by `FfmpegDecoder::new`:
`receiving_eof_frames: false, receiving_frames: false`, no end-of-stream
signal sent yet, and an arbitrary packet source and codec state. -/
def FfmpegDecoder.init (packets : List Nat) (d0 : D) (vd : VideoDetails)
    (idx : Nat) : FfmpegDecoder D :=
  ⟨packets, d0, vd, idx, false, false, 0⟩

/-- States of the FFmpeg adapter reachable from initialization by a
sequence of `receive_frame` calls. -/
inductive FfmpegDecoder.Reachable (recv : D → Bool × D) (sendP : D → Nat → D)
    (sendE : D → D) : FfmpegDecoder D → Prop where
  | init (packets : List Nat) (d0 : D) (vd : VideoDetails) (idx : Nat) :
      FfmpegDecoder.Reachable recv sendP sendE (FfmpegDecoder.init packets d0 vd idx)
  | step (s : FfmpegDecoder D)
      (h : FfmpegDecoder.Reachable recv sendP sendE s) :
      FfmpegDecoder.Reachable recv sendP sendE
        (FfmpegDecoder.receive_frame recv sendP sendE s).2

/-- The inductive invariant of the state machine: at most one
end-of-stream signal has been sent, none before `receiving_eof_frames` is
set, and in the draining state the flag `receiving_frames` is clear and
the packet source is exhausted. -/
def FfmpegDecoder.Inv (s : FfmpegDecoder D) : Prop :=
  s.eof_signals ≤ 1 ∧
  (s.receiving_eof_frames = false → s.eof_signals = 0) ∧
  (s.receiving_eof_frames = true → s.receiving_frames = false ∧ s.packets = [])

/-- One `receive_frame` call preserves the invariant, and can answer
`false` only from the draining state (packet source exhausted,
`receiving_eof_frames` set). -/
theorem FfmpegDecoder.receive_frame_inv (recv : D → Bool × D)
    (sendP : D → Nat → D) (sendE : D → D) :
    ∀ s : FfmpegDecoder D, FfmpegDecoder.Inv s →
      FfmpegDecoder.Inv (FfmpegDecoder.receive_frame recv sendP sendE s).2 ∧
      ((FfmpegDecoder.receive_frame recv sendP sendE s).1 = false →
        (FfmpegDecoder.receive_frame recv sendP sendE s).2.packets = [] ∧
        (FfmpegDecoder.receive_frame recv sendP sendE s).2.receiving_eof_frames = true) := by
  intro s
  induction s using FfmpegDecoder.receive_frame.induct recv sendP sendE with
  | case1 x h1 d hrecv =>
    intro hinv
    obtain ⟨hs1, hs2, hs3⟩ := hinv
    unfold FfmpegDecoder.receive_frame
    rw [if_pos h1, hrecv]
    refine ⟨⟨hs1, hs2, hs3⟩, fun he => ?_⟩
    simp at he
  | case2 x h1 d hrecv p rest hp hne ih =>
    intro hinv
    obtain ⟨hs1, hs2, hs3⟩ := hinv
    have heofF : x.receiving_eof_frames = false := by
      cases he : x.receiving_eof_frames
      · rfl
      · rw [(hs3 he).1] at h1; simp at h1
    have hnext := ih ⟨hs1, fun _ => hs2 heofF, fun he => absurd he (by rw [heofF]; simp)⟩
    unfold FfmpegDecoder.receive_frame
    rw [if_pos h1, hrecv]
    try dsimp only
    split
    · rename_i p' rest' hp'
      rw [hp] at hp'
      injection hp' with hpp hrr
      subst hpp hrr
      rw [if_pos hne]
      exact hnext
    · rename_i hp'
      rw [hp] at hp'
      cases hp'
  | case3 x h1 d hrecv p rest hp hne ih =>
    intro hinv
    obtain ⟨hs1, hs2, hs3⟩ := hinv
    have heofF : x.receiving_eof_frames = false := by
      cases he : x.receiving_eof_frames
      · rfl
      · rw [(hs3 he).1] at h1; simp at h1
    have hnext := ih ⟨hs1, fun _ => hs2 heofF, fun he => absurd he (by rw [heofF]; simp)⟩
    unfold FfmpegDecoder.receive_frame
    rw [if_pos h1, hrecv]
    try dsimp only
    split
    · rename_i p' rest' hp'
      rw [hp] at hp'
      injection hp' with hpp hrr
      subst hpp hrr
      rw [if_neg hne]
      exact hnext
    · rename_i hp'
      rw [hp] at hp'
      cases hp'
  | case4 x h1 d hrecv hp ih =>
    intro hinv
    obtain ⟨hs1, hs2, hs3⟩ := hinv
    have heofF : x.receiving_eof_frames = false := by
      cases he : x.receiving_eof_frames
      · rfl
      · rw [(hs3 he).1] at h1; simp at h1
    have hsig : x.eof_signals = 0 := hs2 heofF
    have hnext := ih ⟨by show x.eof_signals + 1 ≤ 1; omega,
      fun he => by simp at he, fun _ => ⟨rfl, hp⟩⟩
    unfold FfmpegDecoder.receive_frame
    rw [if_pos h1, hrecv]
    try dsimp only
    split
    · rename_i p' rest' hp'
      rw [hp] at hp'
      cases hp'
    · exact hnext
  | case5 x h1 h2 ok d hrecv =>
    intro hinv
    obtain ⟨hs1, hs2, hs3⟩ := hinv
    unfold FfmpegDecoder.receive_frame
    rw [if_neg h1, if_pos h2, hrecv]
    exact ⟨⟨hs1, hs2, hs3⟩, fun _ => ⟨(hs3 h2).2, h2⟩⟩
  | case6 x h1 h2 p rest hp hne ih =>
    intro hinv
    obtain ⟨hs1, hs2, hs3⟩ := hinv
    have heofF : x.receiving_eof_frames = false := by
      cases he : x.receiving_eof_frames
      · rfl
      · exact absurd he h2
    have hnext := ih ⟨hs1, fun _ => hs2 heofF, fun he => absurd he h2⟩
    unfold FfmpegDecoder.receive_frame
    rw [if_neg h1, if_neg h2]
    try dsimp only
    split
    · rename_i p' rest' hp'
      rw [hp] at hp'
      injection hp' with hpp hrr
      subst hpp hrr
      rw [if_pos hne]
      exact hnext
    · rename_i hp'
      rw [hp] at hp'
      cases hp'
  | case7 x h1 h2 p rest hp hne ih =>
    intro hinv
    obtain ⟨hs1, hs2, hs3⟩ := hinv
    have heofF : x.receiving_eof_frames = false := by
      cases he : x.receiving_eof_frames
      · rfl
      · exact absurd he h2
    have hnext := ih ⟨hs1, fun _ => hs2 heofF, fun he => absurd he h2⟩
    unfold FfmpegDecoder.receive_frame
    rw [if_neg h1, if_neg h2]
    try dsimp only
    split
    · rename_i p' rest' hp'
      rw [hp] at hp'
      injection hp' with hpp hrr
      subst hpp hrr
      rw [if_neg hne]
      exact hnext
    · rename_i hp'
      rw [hp] at hp'
      cases hp'
  | case8 x h1 h2 hp ih =>
    intro hinv
    obtain ⟨hs1, hs2, hs3⟩ := hinv
    have heofF : x.receiving_eof_frames = false := by
      cases he : x.receiving_eof_frames
      · rfl
      · exact absurd he h2
    have hrfF : x.receiving_frames = false := by
      cases hr : x.receiving_frames
      · rfl
      · exact absurd hr h1
    have hsig : x.eof_signals = 0 := hs2 heofF
    have hnext := ih ⟨by show x.eof_signals + 1 ≤ 1; omega,
      fun he => by simp at he, fun _ => ⟨hrfF, hp⟩⟩
    unfold FfmpegDecoder.receive_frame
    rw [if_neg h1, if_neg h2]
    try dsimp only
    split
    · rename_i p' rest' hp'
      rw [hp] at hp'
      cases hp'
    · exact hnext

/-- Every state reachable from initialization satisfies the invariant. -/
theorem FfmpegDecoder.reachable_inv (recv : D → Bool × D) (sendP : D → Nat → D)
    (sendE : D → D) :
    ∀ s : FfmpegDecoder D, FfmpegDecoder.Reachable recv sendP sendE s →
      FfmpegDecoder.Inv s := by
  intro s h
  induction h with
  | init packets d0 vd idx =>
    exact ⟨by simp [FfmpegDecoder.init], fun _ => rfl,
      fun he => by simp [FfmpegDecoder.init] at he⟩
  | step s hs ih =>
    exact (FfmpegDecoder.receive_frame_inv recv sendP sendE s ih).1

/-- A packet whose stream index differs from the tracked one is skipped:
outside the frame-pulling and draining phases, `receive_frame` behaves as
if the foreign packet were simply absent (flags and codec state
untouched). -/
theorem FfmpegDecoder.skip_foreign_packet (recv : D → Bool × D)
    (sendP : D → Nat → D) (sendE : D → D) :
    ∀ (s : FfmpegDecoder D) (p : Nat) (rest : List Nat),
      s.receiving_frames = false → s.receiving_eof_frames = false →
      s.packets = p :: rest → p ≠ s.stream_index →
      FfmpegDecoder.receive_frame recv sendP sendE s =
        FfmpegDecoder.receive_frame recv sendP sendE { s with packets := rest } := by
  intro s p rest hrf heof hp hne
  conv_lhs => rw [FfmpegDecoder.receive_frame.eq_def]
  rw [if_neg (by rw [hrf]; simp), if_neg (by rw [heof]; simp), hp]
  try dsimp only
  rw [if_pos hne]

/-- C8: in the FFmpeg adapter's `receive_frame` state machine, starting
from initialization, the end-of-stream signal (`send_eof`) is issued at
most once per decoder lifetime (the ghost counter stays at most 1 in every
reachable state, before and after any call); packets with a foreign stream
index are skipped without touching the flags or the codec; and
`receive_frame` returns `false` only with the packet source exhausted and
the adapter switched into the draining (`receiving_eof_frames`) state. -/
theorem ffmpeg_receive_frame_state_machine :
    ∀ (D : Type) (recv : D → Bool × D) (sendP : D → Nat → D) (sendE : D → D)
      (s : FfmpegDecoder D),
      FfmpegDecoder.Reachable recv sendP sendE s →
      s.eof_signals ≤ 1 ∧
      (FfmpegDecoder.receive_frame recv sendP sendE s).2.eof_signals ≤ 1 ∧
      ((FfmpegDecoder.receive_frame recv sendP sendE s).1 = false →
        (FfmpegDecoder.receive_frame recv sendP sendE s).2.packets = [] ∧
        (FfmpegDecoder.receive_frame recv sendP sendE s).2.receiving_eof_frames = true) ∧
      (∀ (p : Nat) (rest : List Nat),
        s.packets = p :: rest → p ≠ s.stream_index →
        s.receiving_frames = false → s.receiving_eof_frames = false →
        FfmpegDecoder.receive_frame recv sendP sendE s =
          FfmpegDecoder.receive_frame recv sendP sendE { s with packets := rest }) := by
  intro D recv sendP sendE s hreach
  have hinv := FfmpegDecoder.reachable_inv recv sendP sendE s hreach
  have hstep := FfmpegDecoder.receive_frame_inv recv sendP sendE s hinv
  exact ⟨hinv.1, hstep.1.1, hstep.2,
    fun p rest hp hne hrf heof =>
      FfmpegDecoder.skip_foreign_packet recv sendP sendE s p rest hrf heof hp hne⟩

/-- Witness for C8: a freshly initialized adapter over a two-packet source
(a foreign packet with stream index 7, then one for the tracked stream 3):
its signal count is at most 1 and the foreign packet is skipped. -/
theorem ffmpeg_receive_frame_state_machine_witness :
    (FfmpegDecoder.init [7, 3] (0 : Nat) testVD 3).eof_signals ≤ 1 ∧
    FfmpegDecoder.receive_frame (fun d => (false, d)) (fun d _ => d) (fun d => d)
        (FfmpegDecoder.init [7, 3] (0 : Nat) testVD 3) =
      FfmpegDecoder.receive_frame (fun d => (false, d)) (fun d _ => d) (fun d => d)
        (FfmpegDecoder.init [3] (0 : Nat) testVD 3) := by
  have h := ffmpeg_receive_frame_state_machine Nat (fun d => (false, d))
    (fun d _ => d) (fun d => d) (FfmpegDecoder.init [7, 3] (0 : Nat) testVD 3)
    (FfmpegDecoder.Reachable.init [7, 3] 0 testVD 3)
  exact ⟨h.1, h.2.2.2 7 [3] rfl (by decide) rfl rfl⟩
